import Mathlib

/-!
# dnsfwd: the query admission and relay engine

A shallow embedding of `dnsfwd.go` (functions `main`, `startServer`, `checkQuery`).

Go strings are modelled as Lean strings (sequences of Unicode scalar values), so
the model covers the valid UTF-8 strings; names decoded by the DNS library are
printable ASCII. Calls into the outside world (the proxy dialer, the upstream
exchange, the client connection, the logger) are recorded as a trace of events,
and what the outside world answers is read from an explicit environment.
-/

namespace Dnsfwd

/-! ## The Go standard library calls used by the admission check -/

/-- Go `unicode.ToLower`: the ASCII range is handled inline (upper-case letters
are shifted by `'a' - 'A'`), every other rune goes through the Unicode case
tables, which are taken as the parameter `caseTable`. -/
def unicodeToLower (caseTable : Char → Char) (r : Char) : Char :=
  if r.toNat ≤ 0x7F then
    if 'A'.toNat ≤ r.toNat ∧ r.toNat ≤ 'Z'.toNat then Char.ofNat (r.toNat + ('a'.toNat - 'A'.toNat))
    else r
  else caseTable r

/-- Go `strings.ToLower`: every rune of the string mapped by `unicode.ToLower`. -/
def ToLower (caseTable : Char → Char) (s : String) : String :=
  ⟨s.data.map (unicodeToLower caseTable)⟩

/-- Go `strings.HasSuffix`:
`len(s) >= len(suffix) && s[len(s)-len(suffix):] == suffix`. -/
def HasSuffix (s suffix : String) : Bool :=
  decide (s.data.length ≥ suffix.data.length) &&
    (s.data.drop (s.data.length - suffix.data.length) == suffix.data)

/-- The loop of Go `strings.Split` for the one-character separator `sep`: the
current piece is cut at every occurrence of `sep`, and the remainder of the
string is always the last piece (so the result is never empty). -/
def splitLoop (sep : Char) : List Char → List Char → List String
  | piece, [] => [⟨piece.reverse⟩]
  | piece, c :: cs =>
    if c = sep then ⟨piece.reverse⟩ :: splitLoop sep [] cs
    else splitLoop sep (c :: piece) cs

/-- Go `strings.Split(s, ",")`. -/
def Split (s : String) : List String := splitLoop ',' [] s.data

/-- The loop of the DNS library function `UnpackDomainName`: every label read from
the wire is appended to the name and followed by ".". -/
def joinLabels : List String → String
  | [] => ""
  | l :: ls => l ++ "." ++ joinLabels ls

/-- The name the DNS library function `UnpackDomainName` returns for the labels read
from the wire, which is what the handler finds in `x.Name`: the labels, each
followed by ".", and "." when nothing was appended (the root name). -/
def unpackedName (labels : List String) : String :=
  let s := joinLabels labels
  if s.data.length = 0 then "." else s

/-! ## The admission check of `checkQuery` (lines 104-118) -/

/-- The inner loop of `checkQuery` over `domainsplits`: `onematch` becomes true at
the first suffix `y` for which
`strings.HasSuffix(strings.ToLower(x.Name), strings.ToLower(y+"."))`. -/
def onematch (caseTable : Char → Char) (name : String) : List String → Bool
  | [] => false
  | y :: ys =>
    if HasSuffix (ToLower caseTable name) (ToLower caseTable (y ++ ".")) then true
    else onematch caseTable name ys

/-- The admission check applied to one question name: the question is rejected
exactly when `len(domainsplits) > 0` and the inner loop leaves `onematch` false. -/
def admits (caseTable : Char → Char) (domainsplits : List String) (name : String) : Bool :=
  if domainsplits.length > 0 then onematch caseTable name domainsplits else true

/-! ## The DNS library types (`github.com/miekg/dns`) -/

/-- A Go `error` value: `none` is `nil`, `some msg` an error with text `msg`. -/
abbrev GoError := Option String

/-- The type `dns.Question`. -/
structure Question where
  Name : String
  Qtype : Nat
  Qclass : Nat
deriving DecidableEq, Repr

/-- The type `dns.MsgHdr`: the header of a message. -/
structure MsgHdr where
  Id : Nat
  Response : Bool
  Opcode : Int
  Authoritative : Bool
  Truncated : Bool
  RecursionDesired : Bool
  RecursionAvailable : Bool
  Zero : Bool
  AuthenticatedData : Bool
  CheckingDisabled : Bool
  Rcode : Int
deriving DecidableEq, Repr

/-- The type `dns.Msg` (`MsgHdr` is embedded); a resource record is kept in its
presentation form. -/
structure Msg extends MsgHdr where
  Compress : Bool
  Question : List Question
  Answer : List String
  Ns : List String
  Extra : List String
deriving DecidableEq, Repr

/-- The zero value of `dns.MsgHdr`. -/
def MsgHdr.zero : MsgHdr :=
  { Id := 0, Response := false, Opcode := 0, Authoritative := false, Truncated := false,
    RecursionDesired := false, RecursionAvailable := false, Zero := false,
    AuthenticatedData := false, CheckingDisabled := false, Rcode := 0 }

/-- The message `new(dns.Msg)` points to: every field has its zero value. -/
def Msg.new : Msg :=
  { toMsgHdr := MsgHdr.zero, Compress := false, Question := [], Answer := [], Ns := [],
    Extra := [] }

/-- The fields of `dns.Client` that `checkQuery` sets or leaves at zero
(durations are `time.Duration` values: signed 64-bit nanoseconds). -/
structure Client where
  Net : String
  UDPSize : Nat
  Timeout : Int
  DialTimeout : Int
  ReadTimeout : Int
  WriteTimeout : Int
deriving DecidableEq, Repr

/-- The value `dns.Client{}`. -/
def Client.zero : Client :=
  { Net := "", UDPSize := 0, Timeout := 0, DialTimeout := 0, ReadTimeout := 0,
    WriteTimeout := 0 }

/-- A `net.Conn` that is not nil, known by an identity. -/
structure NetConn where
  id : Nat
deriving DecidableEq, Repr

set_option linter.dupNamespace false in
/-- The type `dns.Conn` as `checkQuery` fills it. -/
structure Conn where
  Conn : NetConn
  UDPSize : Nat
deriving DecidableEq, Repr

/-- The fields of `dns.Server` that `startServer` sets. -/
structure Server where
  Addr : String
  Net : String
deriving DecidableEq, Repr

/-! ## Durations -/

/-- A value reduced to the range of Go `int64` (two's complement wrap-around). -/
def wrapInt64 (x : Int) : Int := (x + 2 ^ 63) % 2 ^ 64 - 2 ^ 63

/-- Go `time.Second`, in nanoseconds. -/
def Second : Int := 1000000000

/-- Go `time.Second * time.Duration(n)`: the duration of `n` seconds as the
program computes it, an `int64` product. -/
def secondsDuration (n : Int) : Int := wrapInt64 (Second * wrapInt64 n)

/-! ## The program state: the package-level variables -/

/-- The package-level variables read by `startServer` and `checkQuery`. -/
structure Globals where
  domainsplits : List String
  upstream : String
  localbind : String
  upstreamtransport : String
  verbose : Bool
  socks_on : Bool
  fullquery : Bool
  timeout : Int

/-- The line `flag.IntVar(&timeout, "timeout", 2, ...)` of `main`: the value given on
the command line, or the default 2 when the flag is left out. -/
def timeoutFlag (given : Option Int) : Int :=
  match given with
  | some t => t
  | none => 2

/-- The line `domainsplits = strings.Split(domain, ",")` of `main`; `domain` is the
value of the flag `-d`, whose default is the empty string. -/
def mainDomainsplits (domain : String) : List String := Split domain

/-! ## The outside world and the trace of effects -/

/-- An operand of a log line. -/
inductive Arg where
  | str (s : String)
  | strs (l : List String)
  | err (e : GoError)
  | msg (m : Msg)
deriving DecidableEq, Repr

/-- The effects of the program, in the order in which they happen. -/
inductive Event where
  | Log (format : String) (args : List Arg)
  | Stderr (args : List Arg)
  | SOCKS5 (network address : String)
  | Dial (network address : String)
  | ExchangeWithConn (c : Client) (m : Msg) (co : Conn)
  | Exchange (c : Client) (m : Msg) (address : String)
  | WriteMsg (m : Msg)
  | Close (conn : NetConn)
  | HandleFunc (pattern : String)
  | ListenAndServe (s : Server)
  | Sleep (d : Int)
deriving DecidableEq, Repr

/-- What `Client.Exchange` and `Client.ExchangeWithConn` return: `(r, rtt, nil)` with a
message `r` that is not nil, or `(r, rtt, err)` with an error, where `r` is nil or a
message that was read only in part. -/
inductive Exchanged where
  | ok (r : Msg)
  | failed (r : Option Msg) (err : String)
deriving DecidableEq, Repr

/-- A dialer returned by `proxy.SOCKS5`: what its method `Dial` returns. -/
structure Dialer where
  Dial : String → String → Option NetConn × GoError

/-- What the outside world answers to the calls of `checkQuery`. A Go result
`(value, err)` is a pair; a nil pointer or nil interface value is `none`. -/
structure World where
  caseTable : Char → Char
  RemoteAddr : String
  SOCKS5 : String → String → Option Dialer × GoError
  Exchange : Client → Msg → String → Exchanged
  ExchangeWithConn : Client → Msg → Conn → Exchanged

/-- One run of a handler: the trace of its effects, and whether it ended in a
run-time panic (a nil dereference) instead of returning. -/
structure Run where
  trace : List Event
  panicked : Bool
deriving DecidableEq, Repr

/-! ## `checkQuery` -/

/-- The loop of `checkQuery` over `r.Question` (lines 103-122): the log lines it
writes, and whether it left the function through the `return` of line 116. -/
def questionLoop (g : Globals) (w : World) (transport : String) :
    List Question → List Event × Bool
  | [] => ([], false)
  | x :: xs =>
    if admits w.caseTable g.domainsplits x.Name = false then
      (if g.verbose then
          [Event.Log "[%s] Rejected query for %s from %s"
            [Arg.str transport, Arg.str x.Name, Arg.str w.RemoteAddr]]
        else [], true)
    else
      let rest := questionLoop g w transport xs
      ((if g.verbose then
          [Event.Log "[%s] Query for %s from %s"
            [Arg.str transport, Arg.str x.Name, Arg.str w.RemoteAddr]]
        else []) ++ rest.1, rest.2)

/-- Lines 123-126: the outbound message `m`. -/
def outbound (r : Msg) : Msg :=
  { Msg.new with Question := r.Question, Compress := false, Authoritative := true }

/-- Lines 127-132: the client `c`. -/
def newClient (g : Globals) : Client :=
  let c := Client.zero
  let c := if g.timeout ≠ 2 then { c with Timeout := secondsDuration g.timeout } else c
  { c with Net := g.upstreamtransport, UDPSize := 0xffff }

/-- Lines 153-163: what `checkQuery` does with the result `r2, err_c` of the
exchange. -/
def deliver (g : Globals) (transport : String) : Exchanged → List Event
  | Exchanged.failed _ err_c =>
    if g.verbose then
      [Event.Log "[%s] Error communicating to upstream: %s"
        [Arg.str transport, Arg.err (some err_c)]]
    else []
  | Exchanged.ok r2 =>
    (if g.fullquery then [Event.Log "[%s] Response:\n%s" [Arg.str transport, Arg.msg r2]]
      else []) ++ [Event.WriteMsg r2]

/-- Lines 135-148: the SOCKS5 branch. A nil `dialer` makes `dialer.Dial` panic, a
nil `conn` makes `defer conn.Close()` panic; the deferred `Close` runs when the
function returns. -/
def socksBranch (g : Globals) (w : World) (transport : String) (c : Client) (m : Msg) : Run :=
  let p := w.SOCKS5 "tcp" "127.0.0.1:1080"
  let ev1 := Event.SOCKS5 "tcp" "127.0.0.1:1080" ::
    (if p.2 ≠ none then [Event.Stderr [Arg.str "can't connect to the proxy:", Arg.err p.2]]
      else [])
  match p.1 with
  | none => { trace := ev1, panicked := true }
  | some dialer =>
    let q := dialer.Dial "tcp" g.upstream
    let ev2 := Event.Dial "tcp" g.upstream ::
      (if q.2 ≠ none then [Event.Stderr [Arg.str "can't dial to upstream:", Arg.err q.2]]
        else [])
    match q.1 with
    | none => { trace := ev1 ++ ev2, panicked := true }
    | some conn =>
      let socks_conn : Conn := { Conn := conn, UDPSize := c.UDPSize }
      let x := w.ExchangeWithConn c m socks_conn
      { trace := ev1 ++ ev2 ++ [Event.ExchangeWithConn c m socks_conn] ++
          deliver g transport x ++ [Event.Close conn],
        panicked := false }

/-- Lines 149-151: the direct branch, `c.Exchange(r, upstream)`. -/
def directBranch (g : Globals) (w : World) (transport : String) (c : Client) (r : Msg) : Run :=
  let x := w.Exchange c r g.upstream
  { trace := Event.Exchange c r g.upstream :: deliver g transport x, panicked := false }

/-- The handler `checkQuery(w, r, transport)`. -/
def checkQuery (g : Globals) (w : World) (r : Msg) (transport : String) : Run :=
  let l := questionLoop g w transport r.Question
  if l.2 then { trace := l.1, panicked := false }
  else
    let m := outbound r
    let c := newClient g
    let b := if g.socks_on then socksBranch g w transport c m else directBranch g w transport c r
    { trace := l.1 ++ b.trace, panicked := b.panicked }

/-- The messages a run writes to the client connection, in order. -/
def Run.written (run : Run) : List Msg :=
  run.trace.filterMap fun ev =>
    match ev with
    | Event.WriteMsg m => some m
    | _ => none

/-- The messages written to the client for a given result of the exchange. -/
def Exchanged.toWritten : Exchanged → List Msg
  | Exchanged.ok r2 => [r2]
  | Exchanged.failed _ _ => []

/-- The messages a run sends upstream, in order. -/
def Run.sent (run : Run) : List Msg :=
  run.trace.filterMap fun ev =>
    match ev with
    | Event.Exchange _ m _ => some m
    | Event.ExchangeWithConn _ m _ => some m
    | _ => none

/-- An effect that reaches the proxy or the upstream. -/
def Event.isUpstream : Event → Bool
  | Event.SOCKS5 _ _ => true
  | Event.Dial _ _ => true
  | Event.ExchangeWithConn _ _ _ => true
  | Event.Exchange _ _ _ => true
  | _ => false

/-- An effect on the client connection. -/
def Event.isClientWrite : Event → Bool
  | Event.WriteMsg _ => true
  | _ => false

/-! ## `startServer` -/

/-- The states of the supervisor loop of `startServer`: about to call
`s.ListenAndServe()`, inside that call, returned from it with `e`, and sleeping. -/
inductive SupState where
  | Starting
  | Listening
  | Failed (e : GoError)
  | Backoff
deriving DecidableEq, Repr

/-- One step of the loop of `startServer` (lines 90-99) on the server `s`. The
input is read in state `Listening` only: `none` while the listener keeps serving,
`some e` when `s.ListenAndServe()` returns `e`. -/
def supStep (g : Globals) (transport : String) (s : Server) :
    SupState → Option GoError → SupState × List Event
  | SupState.Starting, _ =>
    (SupState.Listening,
      (if g.verbose then
          [Event.Log "[%s] Listening for domains: %v" [Arg.str transport, Arg.strs g.domainsplits],
           Event.Log "[%s] Sending to %s" [Arg.str transport, Arg.str g.upstream]]
        else []) ++ [Event.ListenAndServe s])
  | SupState.Listening, none => (SupState.Listening, [])
  | SupState.Listening, some e => (SupState.Failed e, [])
  | SupState.Failed e, _ =>
    (SupState.Backoff,
      [Event.Log "[%s] error: %s" [Arg.str transport, Arg.err e],
       Event.Log "[%s] Sleeping for 5 seconds before retrying..." [Arg.str transport]])
  | SupState.Backoff, _ => (SupState.Starting, [Event.Sleep (wrapInt64 (Second * 5))])

/-- The step relation of the supervisor: `st2` follows `st1` for some input. -/
def SupStep (g : Globals) (transport : String) (s : Server) (st1 st2 : SupState) : Prop :=
  ∃ inp, (supStep g transport s st1 inp).1 = st2

/-- The loop run for as many steps as there are inputs: the state reached and the
trace of effects. -/
def supRun (g : Globals) (transport : String) (s : Server) :
    SupState → List (Option GoError) → SupState × List Event
  | st, [] => (st, [])
  | st, inp :: inps =>
    let a := supStep g transport s st inp
    let b := supRun g transport s a.1 inps
    (b.1, a.2 ++ b.2)

/-- The function `startServer(transport)`: the server value of line 87, the handler
registration of line 89, then the loop. -/
def startServer (g : Globals) (transport : String) (inps : List (Option GoError)) :
    SupState × List Event :=
  let s : Server := { Addr := g.localbind, Net := transport }
  let b := supRun g transport s SupState.Starting inps
  (b.1, Event.HandleFunc "." :: b.2)

/-- The inputs of one turn of the loop in which the listener returns `e`. -/
def failure (e : GoError) : List (Option GoError) := [none, some e, none, none]

/-- The effects of one turn of the loop in which the listener returns `e`. -/
def failureTrace (g : Globals) (transport : String) (e : GoError) : List Event :=
  (if g.verbose then
      [Event.Log "[%s] Listening for domains: %v" [Arg.str transport, Arg.strs g.domainsplits],
       Event.Log "[%s] Sending to %s" [Arg.str transport, Arg.str g.upstream]]
    else []) ++
  [Event.ListenAndServe { Addr := g.localbind, Net := transport },
   Event.Log "[%s] error: %s" [Arg.str transport, Arg.err e],
   Event.Log "[%s] Sleeping for 5 seconds before retrying..." [Arg.str transport],
   Event.Sleep 5000000000]

/-- The inputs of any number of consecutive failures of the listener. -/
def failures : List GoError → List (Option GoError)
  | [] => []
  | e :: es => failure e ++ failures es

/-- The effects of any number of consecutive failures of the listener. -/
def failuresTrace (g : Globals) (transport : String) : List GoError → List Event
  | [] => []
  | e :: es => failureTrace g transport e ++ failuresTrace g transport es

/-! ## Concrete inputs -/

/-- A configuration: one suffix, the default timeout, the SOCKS5 switch as given. -/
def sampleGlobals (socks : Bool) : Globals :=
  { domainsplits := ["example.com"], upstream := "198.51.100.1:53", localbind := "0.0.0.0:53",
    upstreamtransport := "udp", verbose := false, socks_on := socks, fullquery := false,
    timeout := 2 }

/-- An inbound query as a stub resolver sends it: identifier 4660, recursion
desired, one question under the configured suffix. -/
def sampleQuery : Msg :=
  { Msg.new with
    Id := 4660, RecursionDesired := true,
    Question := [{ Name := "www.example.com.", Qtype := 1, Qclass := 1 }] }

/-- An upstream that answers every message with a response carrying the identifier
and the question section of the message it received. -/
def echoAnswer (m : Msg) : Msg :=
  { m with Response := true, Authoritative := false, RecursionAvailable := true,
           Answer := ["www.example.com. 60 IN A 192.0.2.1"] }

/-- A world in which the proxy and the upstream are reachable. -/
def worldReachable : World :=
  { caseTable := id, RemoteAddr := "192.0.2.7:40000",
    SOCKS5 := fun _ _ => (some { Dial := fun _ _ => (some { id := 1 }, none) }, none),
    Exchange := fun _ m _ => Exchanged.ok (echoAnswer m),
    ExchangeWithConn := fun _ m _ => Exchanged.ok (echoAnswer m) }

/-- A world in which dialing the upstream through the proxy fails. -/
def worldDialFails : World :=
  { worldReachable with
    SOCKS5 := fun _ _ => (some { Dial := fun _ _ => (none, some "connection refused") }, none) }

/-- A world in which creating the proxy dialer fails. -/
def worldNoDialer : World :=
  { worldReachable with SOCKS5 := fun _ _ => (none, some "unknown network") }

/-- A world in which the direct exchange times out. -/
def worldTimeout : World :=
  { worldReachable with Exchange := fun _ _ _ => Exchanged.failed none "i/o timeout" }

/-! ## Lemmas on the string functions -/

theorem HasSuffix_iff (s t : String) : HasSuffix s t = true ↔ t.data <:+ s.data := by
  unfold HasSuffix
  rw [List.suffix_iff_eq_drop]
  simp only [Bool.and_eq_true, decide_eq_true_eq, beq_iff_eq]
  constructor
  · rintro ⟨_, h⟩
    exact h.symm
  · intro h
    have hl := congrArg List.length h
    simp only [List.length_drop] at hl
    exact ⟨by omega, h.symm⟩

theorem unicodeToLower_dot (tbl : Char → Char) : unicodeToLower tbl '.' = '.' := rfl

theorem ToLower_append_dot (tbl : Char → Char) (y : String) :
    ToLower tbl (y ++ ".") = ToLower tbl y ++ "." := by
  apply String.ext
  simp [ToLower, String.data_append, unicodeToLower_dot]

theorem onematch_iff (tbl : Char → Char) (name : String) (S : List String) :
    onematch tbl name S = true ↔
      ∃ y ∈ S, HasSuffix (ToLower tbl name) (ToLower tbl (y ++ ".")) = true := by
  induction S with
  | nil => simp [onematch]
  | cons y ys ih =>
    by_cases h : HasSuffix (ToLower tbl name) (ToLower tbl (y ++ ".")) = true
    · simp [onematch, h]
    · simp [onematch, h, ih]

theorem admits_true_iff (tbl : Char → Char) (S : List String) (Q : String) :
    admits tbl S Q = true ↔
      S = [] ∨ ∃ s ∈ S, (ToLower tbl s ++ ".").data <:+ (ToLower tbl Q).data := by
  cases S with
  | nil => simp [admits]
  | cons y ys =>
    simp only [admits, List.length_cons, gt_iff_lt, Nat.zero_lt_succ, ↓reduceIte,
      onematch_iff, HasSuffix_iff, ToLower_append_dot, reduceCtorEq, false_or]

theorem ToLower_dot_suffix (tbl : Char → Char) (Q : String) (h : ['.'] <:+ Q.data) :
    ['.'] <:+ (ToLower tbl Q).data := by
  obtain ⟨p, hp⟩ := h
  refine ⟨p.map (unicodeToLower tbl), ?_⟩
  simp [ToLower, ← hp, unicodeToLower_dot]

theorem admits_unfiltered_iff (tbl : Char → Char) (Q : String) :
    admits tbl [""] Q = true ↔ ['.'] <:+ (ToLower tbl Q).data := by
  rw [admits_true_iff]
  simp [ToLower]

theorem joinLabels_dot (labels : List String) :
    (joinLabels labels).data = [] ∨ ['.'] <:+ (joinLabels labels).data := by
  induction labels with
  | nil => exact Or.inl rfl
  | cons l ls ih =>
    right
    rcases ih with h | h
    · refine ⟨l.data, ?_⟩
      simp [joinLabels, String.data_append, h]
    · obtain ⟨p, hp⟩ := h
      refine ⟨l.data ++ ['.'] ++ p, ?_⟩
      simp [joinLabels, String.data_append, ← hp]

theorem unpackedName_dot (labels : List String) : ['.'] <:+ (unpackedName labels).data := by
  unfold unpackedName
  by_cases h : (joinLabels labels).data.length = 0
  · simp [h]
  · simp only [h, ↓reduceIte]
    rcases joinLabels_dot labels with h0 | h1
    · simp [h0] at h
    · exact h1

/-! ## Lemmas on the question loop -/

theorem questionLoop_rejected (g : Globals) (w : World) (transport : String)
    (qs : List Question) :
    (questionLoop g w transport qs).2 = true ↔
      ∃ x ∈ qs, admits w.caseTable g.domainsplits x.Name = false := by
  induction qs with
  | nil => simp [questionLoop]
  | cons x xs ih =>
    by_cases h : admits w.caseTable g.domainsplits x.Name = false
    · simp [questionLoop, h]
    · simp [questionLoop, h, ih]

theorem questionLoop_logs (g : Globals) (w : World) (transport : String)
    (qs : List Question) :
    ∀ ev ∈ (questionLoop g w transport qs).1, ∃ f a, ev = Event.Log f a := by
  induction qs with
  | nil => simp [questionLoop]
  | cons x xs ih =>
    intro ev hev
    by_cases h : admits w.caseTable g.domainsplits x.Name = false
    · by_cases hv : g.verbose = true <;> simp [questionLoop, h, hv] at hev
      exact ⟨_, _, hev⟩
    · by_cases hv : g.verbose = true <;> simp [questionLoop, h, hv] at hev
      · rcases hev with hev | hev
        · exact ⟨_, _, hev⟩
        · exact ih ev hev
      · exact ih ev hev

/-! ## Lemmas on the trace of `checkQuery` -/

theorem filterMap_logs {β : Type} (f : Event → Option β)
    (hf : ∀ fmt a, f (Event.Log fmt a) = none) (l : List Event)
    (hl : ∀ ev ∈ l, ∃ fmt a, ev = Event.Log fmt a) : l.filterMap f = [] := by
  induction l with
  | nil => rfl
  | cons ev evs ih =>
    obtain ⟨fmt, a, rfl⟩ := hl _ (List.mem_cons_self _ _)
    rw [List.filterMap_cons, hf]
    exact ih fun e he => hl e (List.mem_cons_of_mem _ he)

theorem questionLoop_written (g : Globals) (w : World) (transport : String)
    (qs : List Question) :
    (Run.mk (questionLoop g w transport qs).1 false).written = [] :=
  filterMap_logs _ (fun _ _ => rfl) _ (questionLoop_logs g w transport qs)

theorem questionLoop_sent (g : Globals) (w : World) (transport : String)
    (qs : List Question) :
    (Run.mk (questionLoop g w transport qs).1 false).sent = [] :=
  filterMap_logs _ (fun _ _ => rfl) _ (questionLoop_logs g w transport qs)

theorem questionLoop_admitted (g : Globals) (w : World) (transport : String)
    (qs : List Question)
    (hall : ∀ x ∈ qs, admits w.caseTable g.domainsplits x.Name = true) :
    (questionLoop g w transport qs).2 = false := by
  cases hr : (questionLoop g w transport qs).2 with
  | false => rfl
  | true =>
    obtain ⟨x, hx, hrej⟩ := (questionLoop_rejected g w transport qs).1 hr
    rw [hall x hx] at hrej
    exact absurd hrej (by decide)

theorem deliver_written (g : Globals) (transport : String) (x : Exchanged) :
    (deliver g transport x).filterMap
        (fun ev => match ev with
          | Event.WriteMsg m => some m
          | _ => none) = x.toWritten := by
  cases x <;> by_cases hv : g.verbose = true <;>
    by_cases hf : g.fullquery = true <;> simp [deliver, Exchanged.toWritten, hv, hf]

theorem deliver_sent (g : Globals) (transport : String) (x : Exchanged) :
    (deliver g transport x).filterMap
        (fun ev => match ev with
          | Event.Exchange _ m _ => some m
          | Event.ExchangeWithConn _ m _ => some m
          | _ => none) = [] := by
  cases x <;> by_cases hv : g.verbose = true <;>
    by_cases hf : g.fullquery = true <;> simp [deliver, hv, hf]

theorem checkQuery_direct (g : Globals) (w : World) (r : Msg) (transport : String)
    (hs : g.socks_on = false)
    (hall : ∀ x ∈ r.Question, admits w.caseTable g.domainsplits x.Name = true) :
    checkQuery g w r transport =
      { trace := (questionLoop g w transport r.Question).1 ++
          Event.Exchange (newClient g) r g.upstream ::
            deliver g transport (w.Exchange (newClient g) r g.upstream),
        panicked := false } := by
  simp [checkQuery, questionLoop_admitted g w transport r.Question hall, hs, directBranch]

theorem socksBranch_sent (g : Globals) (w : World) (transport : String) (c : Client)
    (m : Msg) (d : Dialer) (cn : NetConn)
    (hd : (w.SOCKS5 "tcp" "127.0.0.1:1080").1 = some d)
    (hc : (d.Dial "tcp" g.upstream).1 = some cn) :
    (socksBranch g w transport c m).sent = [m] ∧
    (socksBranch g w transport c m).panicked = false := by
  have h2 := deliver_sent g transport
    (w.ExchangeWithConn c m { Conn := cn, UDPSize := c.UDPSize })
  by_cases h1 : (w.SOCKS5 "tcp" "127.0.0.1:1080").2 = none <;>
    by_cases h3 : (d.Dial "tcp" g.upstream).2 = none <;>
    simp [socksBranch, Run.sent, hd, hc, h1, h3, List.filterMap_append, h2]

theorem socksBranch_no_conn (g : Globals) (w : World) (transport : String) (c : Client)
    (m : Msg)
    (h : (w.SOCKS5 "tcp" "127.0.0.1:1080").1 = none ∨
      ∃ d, (w.SOCKS5 "tcp" "127.0.0.1:1080").1 = some d ∧
        (d.Dial "tcp" g.upstream).1 = none) :
    (socksBranch g w transport c m).panicked = true := by
  rcases h with h | ⟨d, hd, hc⟩
  · simp [socksBranch, h]
  · simp [socksBranch, hd, hc]

theorem checkQuery_socks (g : Globals) (w : World) (r : Msg) (transport : String)
    (hs : g.socks_on = true)
    (hall : ∀ x ∈ r.Question, admits w.caseTable g.domainsplits x.Name = true) :
    checkQuery g w r transport =
      { trace := (questionLoop g w transport r.Question).1 ++
          (socksBranch g w transport (newClient g) (outbound r)).trace,
        panicked := (socksBranch g w transport (newClient g) (outbound r)).panicked } := by
  simp [checkQuery, questionLoop_admitted g w transport r.Question hall, hs]

/-- On the SOCKS5 path, for every admitted query: when no dialer or no connection
is returned, `checkQuery` ends in a panic. -/
theorem checkQuery_socks_no_conn (g : Globals) (w : World) (r : Msg) (transport : String)
    (hs : g.socks_on = true)
    (hall : ∀ x ∈ r.Question, admits w.caseTable g.domainsplits x.Name = true)
    (h : (w.SOCKS5 "tcp" "127.0.0.1:1080").1 = none ∨
      ∃ d, (w.SOCKS5 "tcp" "127.0.0.1:1080").1 = some d ∧
        (d.Dial "tcp" g.upstream).1 = none) :
    (checkQuery g w r transport).panicked = true := by
  rw [checkQuery_socks g w r transport hs hall]
  exact socksBranch_no_conn g w transport _ _ h

theorem wrapInt64_of_range (x : Int) (h1 : -9223372036854775808 ≤ x)
    (h2 : x ≤ 9223372036854775807) : wrapInt64 x = x := by
  unfold wrapInt64
  omega

/-! ## Lemmas on the supervisor loop -/

theorem supRun_append (g : Globals) (transport : String) (s : Server) (st : SupState)
    (a b : List (Option GoError)) :
    supRun g transport s st (a ++ b) =
      ((supRun g transport s (supRun g transport s st a).1 b).1,
        (supRun g transport s st a).2 ++
          (supRun g transport s (supRun g transport s st a).1 b).2) := by
  induction a generalizing st with
  | nil => simp [supRun]
  | cons i is ih => simp [supRun, ih, List.append_assoc]

theorem backoff_delay : wrapInt64 (Second * 5) = 5000000000 := by decide

theorem supRun_failure (g : Globals) (transport : String) (e : GoError) :
    supRun g transport { Addr := g.localbind, Net := transport } SupState.Starting (failure e) =
      (SupState.Starting, failureTrace g transport e) := by
  simp [failure, supRun, supStep, failureTrace, backoff_delay]

theorem supRun_failures (g : Globals) (transport : String) (es : List GoError) :
    supRun g transport { Addr := g.localbind, Net := transport } SupState.Starting
        (failures es) =
      (SupState.Starting, failuresTrace g transport es) := by
  induction es with
  | nil => rfl
  | cons e es ih =>
    rw [failures, supRun_append, supRun_failure, ih]
    rfl

/-! ## The admission check -/

/-- C1: for every suffix list `S` and question name `Q`, the admission check admits
`Q` if and only if `S` is empty or the lower-cased `Q` ends with the lower-cased
`s` followed by "." for some `s` in `S`, and rejects `Q` in every other case;
lower-casing `s` and then appending "." is the lower-casing of `s + "."` that the
code computes. -/
theorem admits_iff (tbl : Char → Char) (S : List String) (Q : String) :
    (admits tbl S Q = true ↔
      S = [] ∨ ∃ s ∈ S, (ToLower tbl s ++ ".").data <:+ (ToLower tbl Q).data) ∧
    (admits tbl S Q = false ↔
      ¬ (S = [] ∨ ∃ s ∈ S, (ToLower tbl s ++ ".").data <:+ (ToLower tbl Q).data)) ∧
    (∀ s : String, ToLower tbl (s ++ ".") = ToLower tbl s ++ ".") := by
  refine ⟨admits_true_iff tbl S Q, ?_, ToLower_append_dot tbl⟩
  rw [← admits_true_iff tbl S Q]
  simp

/-- C2, counterexample: with the suffix list ["example.com"] the name
"notexample.com." is admitted, although it neither equals "example.com." nor ends
with ".example.com.". -/
theorem admits_not_label_anchored :
    admits id ["example.com"] "notexample.com." = true ∧
    ¬ ∃ s ∈ ["example.com"],
        ToLower id "notexample.com." = ToLower id (s ++ ".") ∨
        (ToLower id ("." ++ s ++ ".")).data <:+ (ToLower id "notexample.com.").data := by
  decide

/-- C2, amended: for every non-empty suffix list `S` and every question name `Q`,
`Q` is admitted only if the lower-cased `Q` ends with the lower-cased `s` followed
by "." for some `s` in `S`: the match is anchored at the end of the name. With
`S = ["example.com"]`, "sub.example.com." is admitted and "example.com.evil." is
rejected. -/
theorem admits_end_anchored (tbl : Char → Char) (S : List String) (Q : String)
    (hS : S ≠ []) (h : admits tbl S Q = true) :
    (∃ s ∈ S, (ToLower tbl s ++ ".").data <:+ (ToLower tbl Q).data) ∧
    admits tbl ["example.com"] "sub.example.com." = true ∧
    admits tbl ["example.com"] "example.com.evil." = false := by
  refine ⟨?_, rfl, rfl⟩
  rcases (admits_true_iff tbl S Q).1 h with h0 | h1
  · exact absurd h0 hS
  · exact h1

/-- C2, witness: a name under the suffix, in mixed case. -/
theorem admits_end_anchored_witness :
    ["example.com"] ≠ [] ∧ admits id ["example.com"] "Sub.Example.COM." = true ∧
    ∃ s ∈ ["example.com"],
      (ToLower id s ++ ".").data <:+ (ToLower id "Sub.Example.COM.").data :=
  ⟨by decide, by decide,
    (admits_end_anchored id ["example.com"] "Sub.Example.COM." (by decide) (by decide)).1⟩

/-- C3: when the flag `-d` is the empty string, `main` builds the suffix list from it
by splitting on commas, and `checkQuery` admits every query. For every question
name the handler can receive, whatever its labels (the DNS library delivers the
labels each followed by ".", and "." for the root name), the admission check
admits the name; so does it every name that ends with "."; the question loop
rejects no question of any query, and on the direct path the query goes to the
upstream. -/
theorem unfiltered_admits_every_query (tbl : Char → Char) (labels : List String) :
    admits tbl (mainDomainsplits "") (unpackedName labels) = true ∧
    (∀ Q : String, ['.'] <:+ Q.data → admits tbl (mainDomainsplits "") Q = true) ∧
    (∀ (g : Globals) (w : World) (transport : String) (r : Msg),
      g.domainsplits = mainDomainsplits "" →
      (∀ x ∈ r.Question, ∃ ls, x.Name = unpackedName ls) →
      (∀ x ∈ r.Question, admits w.caseTable g.domainsplits x.Name = true) ∧
      (questionLoop g w transport r.Question).2 = false ∧
      (g.socks_on = false →
        Event.Exchange (newClient g) r g.upstream ∈ (checkQuery g w r transport).trace)) := by
  have hsplit : mainDomainsplits "" = [""] := by decide
  have hdot : ∀ (t : Char → Char) (Q : String), ['.'] <:+ Q.data →
      admits t (mainDomainsplits "") Q = true := by
    intro t Q h
    rw [hsplit]
    exact (admits_unfiltered_iff t Q).2 (ToLower_dot_suffix t Q h)
  refine ⟨hdot tbl _ (unpackedName_dot labels), hdot tbl, ?_⟩
  intro g w transport r hg hqs
  have hall : ∀ x ∈ r.Question, admits w.caseTable g.domainsplits x.Name = true := by
    intro x hx
    obtain ⟨ls, hls⟩ := hqs x hx
    rw [hg, hls]
    exact hdot w.caseTable _ (unpackedName_dot ls)
  refine ⟨hall, questionLoop_admitted g w transport r.Question hall, ?_⟩
  intro hs
  rw [checkQuery_direct g w r transport hs hall]
  simp

/-- C3, witness: the name "www.example.org." and the root name, with the flag `-d`
left empty. -/
theorem unfiltered_admits_every_query_witness :
    mainDomainsplits "" = [""] ∧
    unpackedName ["www", "example", "org"] = "www.example.org." ∧
    unpackedName [] = "." ∧
    admits id (mainDomainsplits "") "www.example.org." = true ∧
    admits id (mainDomainsplits "") "." = true :=
  ⟨by decide, by decide, by decide,
    (unfiltered_admits_every_query id ["www", "example", "org"]).2.1 "www.example.org."
      (by decide),
    (unfiltered_admits_every_query id []).1⟩

/-! ## The handler -/

/-- C4: a query is fully admitted or fully rejected. For every query and suffix
list, if any one question of the query fails the admission check, wherever it
stands among the questions, then every effect of `checkQuery` is a log line: no
proxy dialer, no dial, no exchange (direct or through SOCKS5), nothing sent
upstream, nothing written to the client, and the handler returns. -/
theorem checkQuery_rejected_silent (g : Globals) (w : World) (r : Msg) (transport : String)
    (h : ∃ x ∈ r.Question, admits w.caseTable g.domainsplits x.Name = false) :
    (∀ ev ∈ (checkQuery g w r transport).trace, ∃ fmt a, ev = Event.Log fmt a) ∧
    (∀ ev ∈ (checkQuery g w r transport).trace,
      ev.isUpstream = false ∧ ev.isClientWrite = false) ∧
    (checkQuery g w r transport).sent = [] ∧
    (checkQuery g w r transport).written = [] ∧
    (checkQuery g w r transport).panicked = false := by
  have hrej := (questionLoop_rejected g w transport r.Question).2 h
  have hrun : checkQuery g w r transport =
      { trace := (questionLoop g w transport r.Question).1, panicked := false } := by
    simp [checkQuery, hrej]
  rw [hrun]
  refine ⟨questionLoop_logs g w transport r.Question, ?_,
    questionLoop_sent g w transport r.Question,
    questionLoop_written g w transport r.Question, rfl⟩
  intro ev hev
  obtain ⟨fmt, a, rfl⟩ := questionLoop_logs g w transport r.Question ev hev
  exact ⟨rfl, rfl⟩

/-- C4, witness: a query of two questions, the first admitted and the second
rejected. -/
theorem checkQuery_rejected_silent_witness :
    (∃ x ∈ [Question.mk "www.example.com." 1 1, Question.mk "www.example.org." 1 1],
      admits id ["example.com"] x.Name = false) ∧
    (checkQuery (sampleGlobals true) worldReachable
      { sampleQuery with
        Question := [Question.mk "www.example.com." 1 1, Question.mk "www.example.org." 1 1] }
      "udp").written = [] :=
  ⟨by decide,
    (checkQuery_rejected_silent (sampleGlobals true) worldReachable
      { sampleQuery with
        Question := [Question.mk "www.example.com." 1 1, Question.mk "www.example.org." 1 1] }
      "udp" (by decide)).2.2.2.1⟩

/-- C5: for every query whose questions are all admitted, on the direct path, what
`checkQuery` writes to the client is determined by the result of the exchange:
when the exchange returns the response `R` and no error, exactly one message is
written and it is `R`; when the exchange returns an error, nothing is written; in
both cases the handler returns. -/
theorem checkQuery_direct_written (g : Globals) (w : World) (r : Msg) (transport : String)
    (hs : g.socks_on = false)
    (hall : ∀ x ∈ r.Question, admits w.caseTable g.domainsplits x.Name = true) :
    (checkQuery g w r transport).written =
      (w.Exchange (newClient g) r g.upstream).toWritten ∧
    (∀ R : Msg, w.Exchange (newClient g) r g.upstream = Exchanged.ok R →
      (checkQuery g w r transport).written = [R]) ∧
    (∀ (r2 : Option Msg) (e : String),
      w.Exchange (newClient g) r g.upstream = Exchanged.failed r2 e →
      (checkQuery g w r transport).written = []) ∧
    (checkQuery g w r transport).panicked = false := by
  have hw : (checkQuery g w r transport).written =
      (w.Exchange (newClient g) r g.upstream).toWritten := by
    rw [checkQuery_direct g w r transport hs hall]
    have h1 := questionLoop_written g w transport r.Question
    have h2 := deliver_written g transport (w.Exchange (newClient g) r g.upstream)
    simp only [Run.written] at h1 ⊢
    rw [List.filterMap_append, h1, List.filterMap_cons, h2]
    rfl
  refine ⟨hw, ?_, ?_, ?_⟩
  · intro R hR
    rw [hw, hR]
    rfl
  · intro r2 e he
    rw [hw, he]
    rfl
  · rw [checkQuery_direct g w r transport hs hall]

/-- C5, witness: the sample query on the direct path, once with an upstream that
answers and once with an exchange that times out. -/
theorem checkQuery_direct_written_witness :
    (sampleGlobals false).socks_on = false ∧
    (∀ x ∈ sampleQuery.Question, admits id ["example.com"] x.Name = true) ∧
    (checkQuery (sampleGlobals false) worldReachable sampleQuery "udp").written =
      [echoAnswer sampleQuery] ∧
    (checkQuery (sampleGlobals false) worldTimeout sampleQuery "udp").written = [] :=
  ⟨rfl, by decide,
    (checkQuery_direct_written (sampleGlobals false) worldReachable sampleQuery "udp" rfl
      (by decide)).2.1 _ rfl,
    (checkQuery_direct_written (sampleGlobals false) worldTimeout sampleQuery "udp" rfl
      (by decide)).2.2.1 none "i/o timeout" rfl⟩

/-- C6, the code at the failing input: SOCKS5 is on, the query is admitted, and
dialing the upstream through the proxy returns no connection and an error. The
handler prints the error, goes on to `defer conn.Close()` on the missing
connection and ends in a panic; the same happens when no dialer is returned. -/
theorem checkQuery_socks_dial_failure_panics :
    (∀ x ∈ sampleQuery.Question, admits id (sampleGlobals true).domainsplits x.Name = true) ∧
    checkQuery (sampleGlobals true) worldDialFails sampleQuery "udp" =
      { trace := [Event.SOCKS5 "tcp" "127.0.0.1:1080", Event.Dial "tcp" "198.51.100.1:53",
          Event.Stderr [Arg.str "can't dial to upstream:", Arg.err (some "connection refused")]],
        panicked := true } ∧
    checkQuery (sampleGlobals true) worldNoDialer sampleQuery "udp" =
      { trace := [Event.SOCKS5 "tcp" "127.0.0.1:1080",
          Event.Stderr [Arg.str "can't connect to the proxy:", Arg.err (some "unknown network")]],
        panicked := true } := by
  decide

/-- C7, the code at the failing input: SOCKS5 is on, the inbound query has the
identifier 4660 and the upstream echoes the identifier it receives. The message
sent upstream has the identifier 0, and so has the response written to the client;
on the direct path both have the identifier 4660. -/
theorem checkQuery_socks_identifier_zero :
    sampleQuery.Id = 4660 ∧
    (∀ m : Msg, (echoAnswer m).Id = m.Id) ∧
    (checkQuery (sampleGlobals true) worldReachable sampleQuery "udp").sent.map
      (fun m => m.Id) = [0] ∧
    (checkQuery (sampleGlobals true) worldReachable sampleQuery "udp").written.map
      (fun m => m.Id) = [0] ∧
    (checkQuery (sampleGlobals false) worldReachable sampleQuery "udp").sent.map
      (fun m => m.Id) = [4660] ∧
    (checkQuery (sampleGlobals false) worldReachable sampleQuery "udp").written.map
      (fun m => m.Id) = [4660] := by
  refine ⟨rfl, fun _ => rfl, ?_, ?_, ?_, ?_⟩ <;> decide

/-- C9, the code at the failing input: the direct path, an admitted query with
recursion desired and the Authoritative flag clear. The message sent upstream is the
inbound message itself: it has recursion desired and the Authoritative flag clear,
and it is not the freshly constructed message, which the SOCKS5 path sends for the
same query. -/
theorem checkQuery_direct_sends_inbound :
    (∀ x ∈ sampleQuery.Question, admits id (sampleGlobals false).domainsplits x.Name = true) ∧
    (checkQuery (sampleGlobals false) worldReachable sampleQuery "udp").sent = [sampleQuery] ∧
    sampleQuery.Authoritative = false ∧ sampleQuery.RecursionDesired = true ∧
    (checkQuery (sampleGlobals false) worldReachable sampleQuery "udp").sent ≠
      [outbound sampleQuery] ∧
    (checkQuery (sampleGlobals true) worldReachable sampleQuery "udp").sent =
      [outbound sampleQuery] := by
  decide

/-- What the two branches send, for every query whose questions are all admitted: on
the SOCKS5 path with a dialer and a connection returned, the one message sent
upstream is the freshly constructed message (the question section of the inbound
query, the Authoritative flag set, every other header flag clear); on the direct
path the one message sent upstream is the inbound message itself. -/
theorem checkQuery_sent (g : Globals) (w : World) (r : Msg) (transport : String)
    (hall : ∀ x ∈ r.Question, admits w.caseTable g.domainsplits x.Name = true) :
    (g.socks_on = true →
      ∀ (d : Dialer) (cn : NetConn), (w.SOCKS5 "tcp" "127.0.0.1:1080").1 = some d →
        (d.Dial "tcp" g.upstream).1 = some cn →
        (checkQuery g w r transport).sent = [outbound r]) ∧
    (outbound r).Question = r.Question ∧
    (outbound r).Authoritative = true ∧
    ((outbound r).Response = false ∧ (outbound r).Opcode = 0 ∧
      (outbound r).Truncated = false ∧ (outbound r).RecursionDesired = false ∧
      (outbound r).RecursionAvailable = false ∧ (outbound r).Zero = false ∧
      (outbound r).AuthenticatedData = false ∧ (outbound r).CheckingDisabled = false ∧
      (outbound r).Rcode = 0) ∧
    (g.socks_on = false → (checkQuery g w r transport).sent = [r]) := by
  refine ⟨?_, rfl, rfl, ⟨rfl, rfl, rfl, rfl, rfl, rfl, rfl, rfl, rfl⟩, ?_⟩
  · intro hs d cn hd hc
    rw [checkQuery_socks g w r transport hs hall]
    have h1 := questionLoop_sent g w transport r.Question
    have h2 := (socksBranch_sent g w transport (newClient g) (outbound r) d cn hd hc).1
    simp only [Run.sent] at h1 h2 ⊢
    rw [List.filterMap_append, h1, h2]
    rfl
  · intro hs
    rw [checkQuery_direct g w r transport hs hall]
    have h1 := questionLoop_sent g w transport r.Question
    have h2 := deliver_sent g transport (w.Exchange (newClient g) r g.upstream)
    simp only [Run.sent] at h1 ⊢
    rw [List.filterMap_append, h1, List.filterMap_cons, h2]
    rfl

/-- C10, counterexample: with the timeout 9223372037, which differs from 2, the
client's timeout is the wrapped `int64` product, -9223372036709551616 ns, and not
9223372037 seconds. -/
theorem newClient_timeout_wraps :
    (9223372037 : Int) ≠ 2 ∧
    (newClient { sampleGlobals false with timeout := 9223372037 }).Timeout =
      -9223372036709551616 ∧
    (newClient { sampleGlobals false with timeout := 9223372037 }).Timeout ≠
      9223372037 * 1000000000 := by
  decide

/-- C10, amended: for every configured timeout value `t` between -9223372036 and
9223372036, the client that `checkQuery` builds has its timeout set to `t` seconds
(`t` times 10^9 nanoseconds) if and only if `t` differs from 2; when `t` is 2 the
timeout keeps its zero value, so giving the timeout as 2 and leaving the flag out
build the same client. -/
theorem newClient_timeout (g : Globals) (h1 : -9223372036 ≤ g.timeout)
    (h2 : g.timeout ≤ 9223372036) :
    ((newClient g).Timeout = g.timeout * 1000000000 ↔ g.timeout ≠ 2) ∧
    (g.timeout = 2 → (newClient g).Timeout = 0 ∧ (newClient g).Timeout = Client.zero.Timeout) ∧
    newClient { g with timeout := timeoutFlag (some 2) } =
      newClient { g with timeout := timeoutFlag none } := by
  have hsec : secondsDuration g.timeout = g.timeout * 1000000000 := by
    unfold secondsDuration
    rw [wrapInt64_of_range g.timeout (by omega) (by omega),
      wrapInt64_of_range _ (by unfold Second; omega) (by unfold Second; omega)]
    unfold Second
    omega
  refine ⟨?_, ?_, rfl⟩
  · by_cases h : g.timeout = 2
    · simp [newClient, h, Client.zero]
    · simp [newClient, h, hsec]
  · intro h
    simp [newClient, h, Client.zero]

/-- C10, witness: the timeout 30 gives 30 seconds, the timeout 2 leaves the zero
value. -/
theorem newClient_timeout_witness :
    (newClient { sampleGlobals false with timeout := 30 }).Timeout = 30 * 1000000000 ∧
    (sampleGlobals false).timeout = 2 ∧ (newClient (sampleGlobals false)).Timeout = 0 :=
  ⟨(newClient_timeout { sampleGlobals false with timeout := 30 } (by decide) (by decide)).1.2
      (by decide),
    rfl,
    ((newClient_timeout (sampleGlobals false) (by decide) (by decide)).2.1 rfl).1⟩

/-! ## The supervisor -/

/-- C8: the supervisor loop of `startServer` has no terminal state and a fixed
back-off. Every state has a successor. When the listener returns, with any error
value `e`, the loop goes from `Listening` to `Failed e`, logs, goes to `Backoff`,
sleeps exactly 5 seconds (5000000000 ns) and goes to `Starting`, from where it
calls `ListenAndServe` again on the same server value, whose address is
`localbind` and whose network is `transport`. After any number of consecutive
failures the loop is in `Starting` again, and its trace is one such turn per
failure. -/
theorem startServer_never_gives_up (g : Globals) (transport : String) :
    (∀ (s : Server) (st : SupState), ∃ st2, SupStep g transport s st st2) ∧
    (∀ (s : Server) (e : GoError) (i1 i2 i3 : Option GoError),
      (supStep g transport s SupState.Listening (some e)).1 = SupState.Failed e ∧
      (supStep g transport s (SupState.Failed e) i1).1 = SupState.Backoff ∧
      supStep g transport s SupState.Backoff i2 =
        (SupState.Starting, [Event.Sleep 5000000000]) ∧
      (supStep g transport s SupState.Starting i3).1 = SupState.Listening ∧
      (∃ logs, (supStep g transport s SupState.Starting i3).2 =
        logs ++ [Event.ListenAndServe s])) ∧
    (∀ es : List GoError,
      startServer g transport (failures es) =
        (SupState.Starting, Event.HandleFunc "." :: failuresTrace g transport es)) ∧
    (∀ e : GoError, ∃ logs,
      failureTrace g transport e =
        logs ++ [Event.ListenAndServe { Addr := g.localbind, Net := transport },
          Event.Log "[%s] error: %s" [Arg.str transport, Arg.err e],
          Event.Log "[%s] Sleeping for 5 seconds before retrying..." [Arg.str transport],
          Event.Sleep 5000000000]) := by
  refine ⟨?_, ?_, ?_, ?_⟩
  · intro s st
    exact ⟨(supStep g transport s st none).1, none, rfl⟩
  · intro s e i1 i2 i3
    refine ⟨rfl, rfl, ?_, rfl, ⟨_, rfl⟩⟩
    simp [supStep, backoff_delay]
  · intro es
    simp [startServer, supRun_failures]
  · intro e
    exact ⟨_, rfl⟩

end Dnsfwd
